import Mathlib

/-!
# Verification of `folder_view.py` (CampusTrotter)

Shallow embedding of `generate_folder_plan` and the `__main__` output-file
writer, over an abstract model of the filesystem subtree visited by
`os.walk`.  Paths are POSIX (`os.path.sep = '/'`, as on the platform the
tool runs on); `os.path.normpath`, `os.path.basename`, `os.path.join` and
`str.count` are embedded from their CPython `posixpath` definitions.
-/

/-- One filesystem directory as observed by `os.walk`: its entry name, whether
`os.scandir` on it succeeds (`readable = false` models a permission / I/O
error while enumerating it), the names of its regular-file entries and its
subdirectories, both in enumeration order. -/
inductive DirTree : Type where
  | node (name : String) (readable : Bool) (files : List String) (subdirs : List DirTree)

def DirTree.name : DirTree → String
  | .node n _ _ _ => n

def DirTree.readable : DirTree → Bool
  | .node _ r _ _ => r

def DirTree.files : DirTree → List String
  | .node _ _ fs _ => fs

def DirTree.subdirs : DirTree → List DirTree
  | .node _ _ _ ss => ss

/-- Embeds `str.count(os.path.sep)` for a single-character separator: the number of
`'/'` characters in the string. -/
def sepCount (s : String) : Nat :=
  s.data.countP (fun c => c = '/')

/-- Embeds `os.path.basename` (posixpath): everything after the last `'/'`. -/
def basename (p : String) : String :=
  ⟨p.data.foldl (fun acc c => if c = '/' then [] else acc ++ [c]) []⟩

/-- Embeds `str.split('/')` on the character list: splits at every separator,
keeping empty components. -/
def splitOnSep : List Char → List (List Char)
  | [] => [[]]
  | c :: cs =>
    let r := splitOnSep cs
    if c = '/' then [] :: r
    else
      match r with
      | [] => [[c]]
      | y :: ys => (c :: y) :: ys

/-- One step of the `for comp in comps` loop of `posixpath.normpath`. -/
def normpathStep (initialSlashes : Nat) (acc : List (List Char)) (comp : List Char) :
    List (List Char) :=
  if comp = [] ∨ comp = ['.'] then acc
  else if comp ≠ ['.', '.'] ∨ (initialSlashes = 0 ∧ acc = []) ∨
      (acc ≠ [] ∧ acc.getLast? = some ['.', '.']) then acc ++ [comp]
  else if acc ≠ [] then acc.dropLast
  else acc

/-- Embeds `os.path.normpath` (posixpath, CPython): lexical normalization —
collapses duplicate separators, resolves `'.'` and `'..'` components, maps
`""` to `"."`.  It does NOT consult the filesystem and does not make a
relative path absolute. -/
def normpath (path : String) : String :=
  if path = "" then "."
  else
    let initialSlashes : Nat :=
      if path.data.head? = some '/' then
        if path.data.take 2 = ['/', '/'] ∧ path.data.take 3 ≠ ['/', '/', '/'] then 2 else 1
      else 0
    let comps := splitOnSep path.data
    let newComps := comps.foldl (normpathStep initialSlashes) []
    let joined := (newComps.intersperse ['/']).flatten
    let out : List Char := List.replicate initialSlashes '/' ++ joined
    if out = [] then "." else ⟨out⟩

/-- Embeds `os.path.join(a, b)` (posixpath) for the two-argument case used inside
`os.walk` when descending into a subdirectory. -/
def pjoin (a b : String) : String :=
  if b.data.head? = some '/' then b
  else if a = "" ∨ a.data.getLast? = some '/' then a ++ b
  else a ++ "/" ++ b

/-- The triple `(dirpath, dirnames, filenames)` yielded by `os.walk`. -/
abbrev WalkTriple := String × List String × List String

mutual
/-- Embeds `os.walk(top, topdown=True)` with the default `onerror=None`: scan `top`;
on success yield `(top, dirnames, filenames)` and then recurse into each
subdirectory at `os.path.join(top, name)`; if `os.scandir` fails, the error
is swallowed (`onerror` is `None`) and the directory yields nothing. -/
def walk (top : String) : DirTree → List WalkTriple
  | .node _ r files subdirs =>
    if r then (top, subdirs.map DirTree.name, files) :: walkSubs top subdirs
    else []

/-- The recursion of `os.walk` over the subdirectories of a directory, in
enumeration order. -/
def walkSubs (top : String) : List DirTree → List WalkTriple
  | [] => []
  | s :: rest => walk (pjoin top s.name) s ++ walkSubs top rest
end

/-- Python's `"    " * n` where `n` is a (possibly negative) `int`:
a non-positive count yields the empty string. -/
def pyStrMul (s : String) (n : Int) : String :=
  ⟨(List.replicate n.toNat s.data).flatten⟩

/-- The body of the `for dirpath, dirnames, filenames in os.walk(...)` loop of
`generate_folder_plan`: the display lines appended for one yielded triple.
`sp` is the normalized `start_path`, `startLevel` its separator count.
(The `except` clause is dead for these triples: the string operations in the
body cannot raise, and enumeration errors are swallowed inside `os.walk`
itself, never reaching the loop body.) -/
def renderTriple (sp : String) (startLevel : Nat) (trip : WalkTriple) : List String :=
  let dirpath := trip.1
  let filenames := trip.2.2
  let currentLevel := sepCount dirpath
  let relativeLevel : Int := (currentLevel : Int) - (startLevel : Int)
  let indent := pyStrMul "    " relativeLevel
  let dirName := basename dirpath
  let dirLine :=
    if dirpath = sp then "+ " ++ dirName ++ "/"
    else indent ++ "+ " ++ dirName ++ "/"
  let fileIndent := pyStrMul "    " (relativeLevel + 1)
  dirLine :: filenames.map (fun f => fileIndent ++ "|-- " ++ f)

/-- The list `plan_lines` accumulated by `generate_folder_plan start_path`
when the directory tree rooted at `normpath start_path` is `fs`. -/
def plan_lines (start_path : String) (fs : DirTree) : List String :=
  let sp := normpath start_path
  let startLevel := sepCount sp
  (walk sp fs).flatMap (renderTriple sp startLevel)

/-- Embeds `generate_folder_plan(start_path)` for a `str` argument, with `fs` the
directory tree rooted at `normpath start_path`.  For a `str` input the
`start_path.count(os.path.sep)` call cannot raise `AttributeError`, so the
`"Error: Invalid start path."` return is unreachable and the result is
`"\n".join(plan_lines)`. -/
def generate_folder_plan (start_path : String) (fs : DirTree) : String :=
  String.intercalate "\n" (plan_lines start_path fs)

/-- The sentinel returned by the `except AttributeError` branch. -/
def invalidPathSentinel : String := "Error: Invalid start path."

/-- Embeds `os.path.isabs` (posixpath): a path is absolute iff it starts with `'/'`. -/
def isabs (p : String) : Bool :=
  p.data.head? = some '/'

/-- Whether a path string ends with the separator character. -/
def endsSep (s : String) : Bool :=
  s.data.getLast? = some '/'

/-- A well-formed directory-entry name, as the operating system produces them:
non-empty and containing no path separator. -/
def goodName (s : String) : Bool :=
  !s.data.isEmpty && s.data.all (fun c => c ≠ '/')

mutual
/-- All subdirectory names in the tree (the root's own name is never consulted
by the renderer) are well-formed entry names. -/
def goodTree : DirTree → Bool
  | .node _ _ _ subdirs => goodSubs subdirs

def goodSubs : List DirTree → Bool
  | [] => true
  | s :: rest => goodName s.name && goodTree s && goodSubs rest
end

/-- The indentation unit repeated a natural number of times. -/
def unitRepeat (n : Nat) : String :=
  ⟨(List.replicate n ("    ".data)).flatten⟩

mutual
/-- Modelled from the spec: the recursive pre-order rendering with explicit
depth tracking — visit a directory, emit its line (`indent · "+ name/"`),
then one line per file at depth + 1 (`indent · "|-- name"`), then the lines
of its subdirectories in enumeration order.  A directory whose enumeration
fails contributes nothing.  This is the spec-side description against which
the separator-counting renderer is compared. -/
def specRender (dispName : String) (depth : Nat) : DirTree → List String
  | .node _ r files subdirs =>
    if r then
      (unitRepeat depth ++ "+ " ++ dispName ++ "/")
        :: (files.map (fun f => unitRepeat (depth + 1) ++ "|-- " ++ f)
            ++ specRenderSubs (depth + 1) subdirs)
    else []

/-- Modelled from the spec: pre-order rendering of a list of sibling
subdirectories, in enumeration order. -/
def specRenderSubs (depth : Nat) : List DirTree → List String
  | [] => []
  | s :: rest => specRender s.name depth s ++ specRenderSubs depth rest
end

/-- The `__main__` block's output file: the header line naming the scan root,
a separator line of `"=" * 40`, then the string returned by
`generate_folder_plan` for that same root (the process's current working
directory, with `fs` the tree rooted there). -/
def output_file_content (current_directory : String) (fs : DirTree) : String :=
  ("Folder Structure Plan for: " ++ current_directory ++ "\n")
    ++ (pyStrMul "=" 40 ++ "\n")
    ++ generate_folder_plan current_directory fs

/-- The tree used to exhibit the behaviour on a failing subdirectory: the
root has two children in enumeration order, `bad` (whose enumeration
fails) holding one file, then `good` (readable) holding one file. -/
def errTree : DirTree :=
  .node "r" true []
    [.node "bad" false ["secret.txt"] [], .node "good" true ["g.txt"] []]

/-- Whether a display line is an inline error line of the form
`<indentation>Error processing directory: <message>`. -/
def isErrorLine (l : String) : Bool :=
  ("Error processing directory".data).isPrefixOf (l.data.dropWhile (fun c => c = ' '))

/-! ## Helper lemmas -/

/-- Recursion principle for `DirTree` with a membership hypothesis for the
subdirectories. -/
theorem DirTree.ind (motive : DirTree → Prop)
    (h : ∀ n r fs subs, (∀ s ∈ subs, motive s) → motive (.node n r fs subs)) :
    ∀ t, motive t
  | .node n r fs subs =>
    h n r fs subs (fun s hs =>
      have : sizeOf s < 1 + sizeOf n + sizeOf r + sizeOf fs + sizeOf subs :=
        Nat.lt_of_lt_of_le (List.sizeOf_lt_of_mem hs) (by omega)
      DirTree.ind motive h s)
termination_by t => sizeOf t

theorem mk_data (s : String) : String.mk s.data = s := by
  cases s; rfl

theorem sepCount_append (a b : String) :
    sepCount (a ++ b) = sepCount a + sepCount b := by
  simp [sepCount, String.data_append, List.countP_append]

theorem goodName_ne_empty {s : String} (h : goodName s = true) : s.data ≠ [] := by
  simp [goodName] at h
  intro hc
  rw [hc] at h
  simp at h

theorem goodName_no_sep {s : String} (h : goodName s = true) :
    ∀ c ∈ s.data, c ≠ '/' := by
  simp [goodName, List.all_eq_true] at h
  exact h.2

theorem sepCount_goodName {s : String} (h : goodName s = true) : sepCount s = 0 := by
  simp only [sepCount, List.countP_eq_zero]
  intro c hc
  simpa using goodName_no_sep h c hc

theorem data_join (a b : String) : (a ++ "/" ++ b).data = a.data ++ '/' :: b.data := by
  simp [String.data_append]

theorem join_ne_empty (a b : String) : a ++ "/" ++ b ≠ "" := by
  intro h
  have := congrArg String.data h
  rw [data_join] at this
  simp at this

theorem sepCount_join (a b : String) (hb : goodName b = true) :
    sepCount (a ++ "/" ++ b) = sepCount a + 1 := by
  rw [sepCount_append, sepCount_append, sepCount_goodName hb]
  have h1 : sepCount "/" = 1 := by decide
  omega

theorem endsSep_join (a b : String) (hb : goodName b = true) :
    endsSep (a ++ "/" ++ b) = false := by
  obtain ⟨l, c, hc⟩ : ∃ l c, b.data = l ++ [c] := by
    rcases List.eq_nil_or_concat b.data with h0 | ⟨l, c, hc⟩
    · exact absurd h0 (goodName_ne_empty hb)
    · exact ⟨l, c, by simpa [List.concat_eq_append] using hc⟩
  have hgl : (a ++ "/" ++ b).data.getLast? = some c := by
    rw [data_join, hc]
    have h2 : a.data ++ '/' :: (l ++ [c]) = (a.data ++ '/' :: l) ++ [c] := by simp
    rw [h2]
    exact List.getLast?_concat _
  have hcne : c ≠ '/' := goodName_no_sep hb c (by rw [hc]; simp)
  simp only [endsSep]
  rw [hgl]
  simp [hcne]

theorem pjoin_eq (a b : String) (ha : a ≠ "") (hsep : endsSep a = false)
    (hb : goodName b = true) : pjoin a b = a ++ "/" ++ b := by
  have hbne : b.data ≠ [] := goodName_ne_empty hb
  have hhead : b.data.head? ≠ some '/' := by
    cases hd : b.data with
    | nil => exact absurd hd hbne
    | cons c cs =>
      have : c ≠ '/' := goodName_no_sep hb c (by rw [hd]; simp)
      simp [this]
  have hlast : a.data.getLast? ≠ some '/' := by
    simpa [endsSep] using hsep
  simp [pjoin, hhead, ha, hlast]

theorem basename_foldl_aux (l acc : List Char) (h : ∀ c ∈ l, c ≠ '/') :
    l.foldl (fun acc c => if c = '/' then [] else acc ++ [c]) acc = acc ++ l := by
  induction l generalizing acc with
  | nil => simp
  | cons c cs ih =>
    have hc : c ≠ '/' := h c (by simp)
    rw [List.foldl_cons, if_neg hc, ih _ (fun x hx => h x (by simp [hx]))]
    simp

theorem basename_join (a b : String) (hb : goodName b = true) :
    basename (a ++ "/" ++ b) = b := by
  unfold basename
  rw [data_join, List.foldl_append, List.foldl_cons, if_pos rfl,
    basename_foldl_aux _ _ (goodName_no_sep hb), List.nil_append, mk_data]

theorem ite_mk_ne_empty (l : List Char) :
    (if l = [] then "." else String.mk l) ≠ "" := by
  split
  · decide
  · next h =>
    intro hc
    exact h (by simpa using congrArg String.data hc)

theorem normpath_ne_empty (p : String) : normpath p ≠ "" := by
  by_cases h0 : p = ""
  · simp [normpath, h0]
  · unfold normpath
    rw [if_neg h0]
    exact ite_mk_ne_empty _

/-- The display lines appended for one triple, written uniformly: when
`dirpath = sp` the relative level is `0`, the indent is empty and the
special-cased root line coincides with the general form. -/
theorem renderTriple_eq (sp : String) (sl : Nat) (hsl : sl = sepCount sp)
    (trip : WalkTriple) :
    renderTriple sp sl trip =
      (pyStrMul "    " ((sepCount trip.1 : Int) - (sl : Int)) ++ "+ " ++ basename trip.1 ++ "/")
        :: trip.2.2.map (fun f =>
            pyStrMul "    " ((sepCount trip.1 : Int) - (sl : Int) + 1) ++ "|-- " ++ f) := by
  obtain ⟨dirpath, dirnames, filenames⟩ := trip
  simp only [renderTriple]
  by_cases h : dirpath = sp
  · subst h
    subst hsl
    rw [if_pos rfl]
    have h0 : pyStrMul "    " ((sepCount dirpath : Int) - (sepCount dirpath : Int)) = "" := by
      rw [Int.sub_self]
      rfl
    rw [h0]
    rfl
  · rw [if_neg h]

/-- The walk-based renderer agrees with the spec's explicit-depth pre-order
renderer, for any visited directory whose path has `sl + d` separators,
provided every subdirectory name is a well-formed entry name and the path
does not end in a separator. -/
theorem walk_specRender (sp : String) (sl : Nat) (hsl : sl = sepCount sp) (t : DirTree) :
    ∀ (top : String) (d : Nat),
      sepCount top = sl + d → top ≠ "" → endsSep top = false → goodTree t = true →
      (walk top t).flatMap (renderTriple sp sl) = specRender (basename top) d t := by
  induction t using DirTree.ind with
  | h n r fs subs ih =>
    intro top d htop hne hsep hgood
    cases r with
    | false => simp [walk, specRender]
    | true =>
      have hsubs : goodSubs subs = true := by simpa [goodTree] using hgood
      have aux : ∀ ls : List DirTree,
          (∀ s ∈ ls, ∀ (top : String) (d : Nat),
            sepCount top = sl + d → top ≠ "" → endsSep top = false → goodTree s = true →
            (walk top s).flatMap (renderTriple sp sl) = specRender (basename top) d s) →
          goodSubs ls = true →
          (walkSubs top ls).flatMap (renderTriple sp sl) = specRenderSubs (d + 1) ls := by
        intro ls
        induction ls with
        | nil => intro _ _; simp [walkSubs, specRenderSubs]
        | cons s rest ihs =>
          intro hmem hgs
          obtain ⟨h1, h2, h3⟩ :
              goodName s.name = true ∧ goodTree s = true ∧ goodSubs rest = true := by
            simpa [goodSubs, Bool.and_eq_true, and_assoc] using hgs
          rw [walkSubs, List.flatMap_append, specRenderSubs]
          rw [pjoin_eq top s.name hne hsep h1]
          rw [hmem s (by simp) (top ++ "/" ++ s.name) (d + 1)
            (by rw [sepCount_join _ _ h1, htop]; omega)
            (join_ne_empty _ _) (endsSep_join _ _ h1) h2]
          rw [basename_join _ _ h1]
          rw [ihs (fun x hx => hmem x (by simp [hx])) h3]
      have hd : ((sepCount top : Int) - (sl : Int)) = ((d : Nat) : Int) := by
        rw [htop]; push_cast; ring
      have hd1 : ((sepCount top : Int) - (sl : Int) + 1) = ((d + 1 : Nat) : Int) := by
        rw [htop]; push_cast; ring
      have hmul : pyStrMul "    " ((sepCount top : Int) - (sl : Int)) = unitRepeat d := by
        rw [hd]; rfl
      have hmul1 : pyStrMul "    " ((sepCount top : Int) - (sl : Int) + 1) =
          unitRepeat (d + 1) := by
        rw [hd1]; rfl
      simp only [walk, if_true]
      rw [List.flatMap_cons]
      rw [renderTriple_eq sp sl hsl]
      simp only [specRender, if_true]
      rw [hmul, hmul1]
      rw [List.cons_append]
      rw [aux subs ih hsubs]

theorem walkSubs_append (top : String) (l1 l2 : List DirTree) :
    walkSubs top (l1 ++ l2) = walkSubs top l1 ++ walkSubs top l2 := by
  induction l1 with
  | nil => simp [walkSubs]
  | cons s rest ih => simp [walkSubs, ih]

theorem walk_unreadable (top : String) (t : DirTree) (h : t.readable = false) :
    walk top t = [] := by
  cases t with
  | node n r fs subs =>
    simp only [DirTree.readable] at h
    simp [walk, h]

theorem mem_walkSubs (top : String) (subs : List DirTree) (s : DirTree) (hs : s ∈ subs)
    (x : WalkTriple) (hx : x ∈ walk (pjoin top s.name) s) : x ∈ walkSubs top subs := by
  induction subs with
  | nil => cases hs
  | cons a rest ih =>
    rw [walkSubs, List.mem_append]
    rcases List.mem_cons.mp hs with h | h
    · subst h
      exact Or.inl hx
    · exact Or.inr (ih h)

theorem plan_lines_eq_spec (start : String) (t : DirTree)
    (hsep : endsSep (normpath start) = false) (hgood : goodTree t = true) :
    plan_lines start t = specRender (basename (normpath start)) 0 t := by
  simp only [plan_lines]
  exact walk_specRender _ _ rfl t (normpath start) 0 (by omega)
    (normpath_ne_empty start) hsep hgood

theorem basename_root_child (b : String) (hb : goodName b = true) :
    basename ("/" ++ b) = b := by
  show basename ("" ++ "/" ++ b) = b
  exact basename_join "" b hb

theorem sepCount_root_child (b : String) (hb : goodName b = true) :
    sepCount ("/" ++ b) = 1 := by
  show sepCount ("" ++ "/" ++ b) = 1
  rw [sepCount_join "" b hb]
  decide

/-! ## Claims -/

/-- C1, counterexample: with `os.walk`'s default `onerror=None`, an
enumeration failure on one subdirectory (`bad`, between no earlier sibling
and the later sibling `good`) produces NO inline
`Error processing directory` line: the failing directory and its contents
vanish from the output entirely, while the later sibling still appears. -/
theorem spec2proof_C1_counterexample :
    plan_lines "/r" errTree = ["+ r/", "    + good/", "        |-- g.txt"]
    ∧ (plan_lines "/r" errTree).countP isErrorLine = 0
    ∧ ("    + good/") ∈ plan_lines "/r" errTree := by
  decide

/-- C1, amended: if enumerating one subdirectory fails, the traversal is not
aborted — the output equals the output for the same tree with the failing
subdirectory removed: its whole subtree is silently omitted, no error line is
recorded, and all sibling and later directories still appear. -/
theorem spec2proof_C1 (start n : String) (files : List String)
    (pre post : List DirTree) (bad : DirTree) (hbad : bad.readable = false) :
    generate_folder_plan start (.node n true files (pre ++ bad :: post)) =
      generate_folder_plan start (.node n true files (pre ++ post)) := by
  simp only [generate_folder_plan, plan_lines]
  congr 1
  simp only [walk, if_true]
  rw [List.flatMap_cons, List.flatMap_cons]
  congr 1
  rw [walkSubs_append, walkSubs_append, walkSubs]
  rw [walk_unreadable _ _ hbad]
  simp

/-- C1, witness for the amended theorem at a concrete failing middle child. -/
theorem spec2proof_C1_witness :
    generate_folder_plan "/r"
        (.node "r" true ["f.txt"]
          ([] ++ DirTree.node "bad" false ["secret.txt"] []
            :: [DirTree.node "good" true [] []])) =
      generate_folder_plan "/r"
        (.node "r" true ["f.txt"] ([] ++ [DirTree.node "good" true [] []])) :=
  spec2proof_C1 "/r" "r" ["f.txt"] [] [DirTree.node "good" true [] []]
    (DirTree.node "bad" false ["secret.txt"] []) rfl

/-- C2, code bug: the comment above the `except AttributeError` branch says it
handles "edge cases like empty paths", and the spec requires the sentinel
`"Error: Invalid start path."` for an empty `start_path`; but
`os.path.normpath("")` returns `"."`, a `str`, whose `.count` never raises
`AttributeError` — so `generate_folder_plan("")` walks the current working
directory instead of returning the sentinel. -/
theorem spec2proof_C2 :
    normpath "" = "."
    ∧ generate_folder_plan "" (.node "cwd" true ["a.txt"] [.node "sub" true [] []]) =
        "+ ./\n    |-- a.txt\n    + sub/"
    ∧ generate_folder_plan "" (.node "cwd" true ["a.txt"] [.node "sub" true [] []]) ≠
        invalidPathSentinel := by
  decide

/-- C3, counterexample: `os.path.normpath` is purely lexical and does not make
a path absolute — for the relative input `"a/b/.."` the normalized path is
the relative `"a"`, and the rendered root name and depth baseline come from
that relative form, not from any absolute canonical path. -/
theorem spec2proof_C3_counterexample :
    normpath "a/b/.." = "a"
    ∧ isabs (normpath "a/b/..") = false
    ∧ generate_folder_plan "a/b/.." (.node "a" true ["f.txt"] []) =
        "+ a/\n    |-- f.txt" := by
  decide

/-- C3, amended: before traversal `generate_folder_plan` normalizes
`start_path` with `os.path.normpath` (resolving `.`/`..` segments and the
separator convention, but not making the path absolute), and the whole
result — depth arithmetic and rendered root name included — depends on
`start_path` only through this normalized form. -/
theorem spec2proof_C3 (s1 s2 : String) (t : DirTree) (h : normpath s1 = normpath s2) :
    generate_folder_plan s1 t = generate_folder_plan s2 t := by
  simp only [generate_folder_plan, plan_lines, h]

/-- C3, witness: two spellings of the same directory — one with `.` and `..`
segments — render identically. -/
theorem spec2proof_C3_witness :
    normpath "/a/./b/../b" = normpath "/a/b"
    ∧ generate_folder_plan "/a/./b/../b" (.node "b" true ["x"] []) =
        generate_folder_plan "/a/b" (.node "b" true ["x"] []) :=
  ⟨by decide, spec2proof_C3 "/a/./b/../b" "/a/b" (.node "b" true ["x"] []) (by decide)⟩

/-- C8: the renderer is a pure function of the normalized root and the
enumeration `os.walk` yields — two runs whose enumerations agree produce
byte-identical output, so enumeration order is the only source of variation
(the embedding is read-only by construction: it never modifies the tree). -/
theorem spec2proof_C8 (start : String) (t1 t2 : DirTree)
    (h : walk (normpath start) t1 = walk (normpath start) t2) :
    generate_folder_plan start t1 = generate_folder_plan start t2 := by
  simp only [generate_folder_plan, plan_lines, h]

/-- C8, witness: two trees that differ only inside an unenumerable
subdirectory yield the same walk and hence byte-identical output. -/
theorem spec2proof_C8_witness :
    walk (normpath "/r") (.node "r" true ["f"] [.node "x" false ["hidden"] []]) =
      walk (normpath "/r") (.node "r" true ["f"] [.node "x" false [] []])
    ∧ generate_folder_plan "/r" (.node "r" true ["f"] [.node "x" false ["hidden"] []]) =
        generate_folder_plan "/r" (.node "r" true ["f"] [.node "x" false [] []]) :=
  ⟨by decide, spec2proof_C8 "/r" (.node "r" true ["f"] [.node "x" false ["hidden"] []])
    (.node "r" true ["f"] [.node "x" false [] []]) (by decide)⟩

/-- C4: for a root whose enumeration succeeds, the root's Display Line is the
first emitted line and carries no leading indentation, whatever the nesting
depth of `start_path`; and for every directory the walk yields, the output
contains its Display Line indented by the separator count of its path minus
the separator count of the normalized `start_path`, clamped to be
non-negative (`Int.toNat` inside `pyStrMul` is that clamp). -/
theorem spec2proof_C4 (start : String) (t : DirTree) (hr : t.readable = true) :
    (plan_lines start t).head? = some ("+ " ++ basename (normpath start) ++ "/")
    ∧ ∀ trip ∈ walk (normpath start) t,
        (pyStrMul "    " ((sepCount trip.1 : Int) - (sepCount (normpath start) : Int))
          ++ "+ " ++ basename trip.1 ++ "/") ∈ plan_lines start t := by
  constructor
  · cases t with
    | node n r fs subs =>
      simp only [DirTree.readable] at hr
      subst hr
      simp only [plan_lines, walk, if_true, List.flatMap_cons]
      rw [renderTriple_eq _ _ rfl, Int.sub_self, List.cons_append]
      rfl
  · intro trip htrip
    simp only [plan_lines]
    refine List.mem_flatMap_of_mem htrip ?_
    rw [renderTriple_eq _ _ rfl]
    exact List.mem_cons_self _ _

/-- C4, witness: a root nested five directories deep still renders first and
unindented. -/
theorem spec2proof_C4_witness :
    (DirTree.node "e" true ["f.txt"] []).readable = true
    ∧ ((plan_lines "/a/b/c/d/e" (DirTree.node "e" true ["f.txt"] [])).head? =
        some ("+ " ++ basename (normpath "/a/b/c/d/e") ++ "/")
      ∧ ∀ trip ∈ walk (normpath "/a/b/c/d/e") (DirTree.node "e" true ["f.txt"] []),
          (pyStrMul "    "
              ((sepCount trip.1 : Int) - (sepCount (normpath "/a/b/c/d/e") : Int))
            ++ "+ " ++ basename trip.1 ++ "/")
            ∈ plan_lines "/a/b/c/d/e" (DirTree.node "e" true ["f.txt"] [])) :=
  ⟨rfl, spec2proof_C4 "/a/b/c/d/e" (DirTree.node "e" true ["f.txt"] []) rfl⟩

/-- C5: the output is the pre-order rendering — each directory's line, then
one line per file it directly contains in enumeration order, then the lines
of its subdirectories in enumeration order — as stated by the explicit-depth
spec renderer; this holds whenever the subdirectory names are well-formed
entry names and the normalized root does not end in a separator. -/
theorem spec2proof_C5 (start : String) (t : DirTree)
    (hgood : goodTree t = true) (hsep : endsSep (normpath start) = false) :
    generate_folder_plan start t =
      String.intercalate "\n" (specRender (basename (normpath start)) 0 t) := by
  unfold generate_folder_plan
  rw [plan_lines_eq_spec start t hsep hgood]

/-- C5, witness at a two-level tree with files before subdirectories. -/
theorem spec2proof_C5_witness :
    goodTree (DirTree.node "proj" true ["a.txt"]
        [DirTree.node "s1" true ["b.txt"] [], DirTree.node "s2" true [] []]) = true
    ∧ endsSep (normpath "/home/u/proj") = false
    ∧ generate_folder_plan "/home/u/proj"
        (DirTree.node "proj" true ["a.txt"]
          [DirTree.node "s1" true ["b.txt"] [], DirTree.node "s2" true [] []]) =
      String.intercalate "\n"
        (specRender (basename (normpath "/home/u/proj")) 0
          (DirTree.node "proj" true ["a.txt"]
            [DirTree.node "s1" true ["b.txt"] [], DirTree.node "s2" true [] []])) :=
  ⟨by decide, by decide,
    spec2proof_C5 "/home/u/proj"
      (DirTree.node "proj" true ["a.txt"]
        [DirTree.node "s1" true ["b.txt"] [], DirTree.node "s2" true [] []])
      (by decide) (by decide)⟩

/-- C6: for a root with no subdirectories and exactly two files, the whole
output is the unindented root line `+ <root_name>/` followed by the two file
lines, each indented by one four-space unit and marked `|-- `, in
enumeration order — for every `start_path` and all file names. -/
theorem spec2proof_C6 (start n f1 f2 : String) :
    generate_folder_plan start (.node n true [f1, f2] []) =
      "+ " ++ basename (normpath start) ++ "/" ++ "\n"
        ++ "    |-- " ++ f1 ++ "\n" ++ "    |-- " ++ f2 := by
  simp only [generate_folder_plan, plan_lines, walk, if_true, walkSubs,
    List.flatMap_cons, List.flatMap_nil, List.append_nil]
  rw [renderTriple_eq _ _ rfl, Int.sub_self]
  simp only [List.map_cons, List.map_nil]
  apply String.ext
  simp [String.intercalate, String.intercalate.go, String.data_append, pyStrMul]

/-- C7: indentation renders tree depth — for any nested structure
`root/sub` with `sub` containing one file, the output lines are the root at
indentation 0, the subdirectory at one unit, and the file at two units. -/
theorem spec2proof_C7 (start n sub c : String) (hsub : goodName sub = true)
    (hsep : endsSep (normpath start) = false) :
    plan_lines start (.node n true [] [.node sub true [c] []]) =
      ["+ " ++ basename (normpath start) ++ "/",
       "    + " ++ sub ++ "/",
       "        |-- " ++ c] := by
  rw [plan_lines_eq_spec start _ hsep (by simp [goodTree, goodSubs, DirTree.name, hsub])]
  simp only [specRender, specRenderSubs, DirTree.name, if_true,
    List.map_cons, List.map_nil, List.nil_append, List.append_nil]
  refine List.ext_getElem (by simp) ?_
  intro i h1 h2
  match i with
  | 0 => apply String.ext; simp [unitRepeat, String.data_append]
  | 1 => apply String.ext; simp [unitRepeat, String.data_append]
  | 2 => apply String.ext; simp [unitRepeat, String.data_append]

/-- C7, witness: the spec's own example `root/sub` with `c.txt`. -/
theorem spec2proof_C7_witness :
    goodName "sub" = true
    ∧ endsSep (normpath "/home/root") = false
    ∧ plan_lines "/home/root"
        (.node "root" true [] [.node "sub" true ["c.txt"] []]) =
      ["+ " ++ basename (normpath "/home/root") ++ "/",
       "    + " ++ "sub" ++ "/",
       "        |-- " ++ "c.txt"] :=
  ⟨by decide, by decide,
    spec2proof_C7 "/home/root" "root" "sub" "c.txt" (by decide) (by decide)⟩

/-- C9: the output file is the header line for the scan root, a separator
line of exactly 40 `'='` characters, and then exactly the string returned by
`generate_folder_plan` for that same root. -/
theorem spec2proof_C9 (cwd : String) (fs : DirTree) (h : '\n' ∉ cwd.data) :
    ∃ h1 h2 : String,
      output_file_content cwd fs =
        h1 ++ "\n" ++ h2 ++ "\n" ++ generate_folder_plan cwd fs
      ∧ ('\n' ∉ h1.data) ∧ ('\n' ∉ h2.data)
      ∧ h2.length = 40 ∧ (∀ ch ∈ h2.data, ch = '=') := by
  refine ⟨"Folder Structure Plan for: " ++ cwd, pyStrMul "=" 40, ?_, ?_, ?_, ?_, ?_⟩
  · simp only [output_file_content, String.append_assoc]
  · simp only [String.data_append, List.mem_append]
    push_neg
    exact ⟨by decide, h⟩
  · decide
  · decide
  · decide

/-- C9, witness at a concrete working directory and tree. -/
theorem spec2proof_C9_witness :
    ('\n' ∉ "/home/user".data)
    ∧ ∃ h1 h2 : String,
        output_file_content "/home/user" (.node "user" true ["n.txt"] []) =
          h1 ++ "\n" ++ h2 ++ "\n"
            ++ generate_folder_plan "/home/user" (.node "user" true ["n.txt"] [])
        ∧ ('\n' ∉ h1.data) ∧ ('\n' ∉ h2.data)
        ∧ h2.length = 40 ∧ (∀ ch ∈ h2.data, ch = '=') :=
  ⟨by decide, spec2proof_C9 "/home/user" (.node "user" true ["n.txt"] []) (by decide)⟩

/-- C10: when `start_path` is the filesystem root `"/"`, whose normalized
form keeps its trailing separator, the root Display Line is `+ /` (empty
base name), and every readable immediate subdirectory of `/` is rendered
with zero leading indentation — the same level as the root — since
`os.path.join("/", name) = "/name"` has the same separator count as `"/"`. -/
theorem spec2proof_C10 (n : String) (files : List String) (subs : List DirTree)
    (s : DirTree) (hs : s ∈ subs) (hname : goodName s.name = true)
    (hr : s.readable = true) :
    normpath "/" = "/"
    ∧ basename "/" = ""
    ∧ (plan_lines "/" (.node n true files subs)).head? = some "+ /"
    ∧ ("+ " ++ s.name ++ "/") ∈ plan_lines "/" (.node n true files subs) := by
  have hnp : normpath "/" = "/" := by decide
  refine ⟨hnp, by decide, rfl, ?_⟩
  simp only [plan_lines, hnp]
  cases s with
  | node ns rs fls sbs =>
    simp only [DirTree.readable] at hr
    subst hr
    simp only [DirTree.name] at hname ⊢
    have hhead : ns.data.head? ≠ some '/' := by
      cases hd : ns.data with
      | nil => simp
      | cons c cs =>
        have hcne : c ≠ '/' := goodName_no_sep hname c (by rw [hd]; simp)
        simp [hcne]
    have hpj : pjoin "/" ns = "/" ++ ns := by
      simp [pjoin, hhead]
    have htrip : ((("/" ++ ns : String), sbs.map DirTree.name, fls) : WalkTriple)
        ∈ walk "/" (DirTree.node n true files subs) := by
      simp only [walk, if_true]
      refine List.mem_cons_of_mem _ ?_
      refine mem_walkSubs "/" subs (DirTree.node ns true fls sbs) hs _ ?_
      simp only [DirTree.name, hpj, walk, if_true]
      exact List.mem_cons_self _ _
    refine List.mem_flatMap_of_mem htrip ?_
    rw [renderTriple_eq _ _ rfl]
    have h1 : sepCount ("/" ++ ns) = 1 := sepCount_root_child ns hname
    have hb : basename ("/" ++ ns) = ns := basename_root_child ns hname
    have hs1 : sepCount "/" = 1 := by decide
    simp only [h1, hb, hs1]
    have hz : ((1 : Nat) : Int) - ((1 : Nat) : Int) = 0 := by decide
    rw [hz]
    exact List.mem_cons_self _ _

/-- C10, witness: the root `"/"` with one readable immediate subdirectory. -/
theorem spec2proof_C10_witness :
    (DirTree.node "usr" true [] []) ∈ [DirTree.node "usr" true [] []]
    ∧ goodName (DirTree.node "usr" true [] []).name = true
    ∧ (DirTree.node "usr" true [] []).readable = true
    ∧ (normpath "/" = "/"
      ∧ basename "/" = ""
      ∧ (plan_lines "/" (.node "" true ["swapfile"] [DirTree.node "usr" true [] []])).head? =
          some "+ /"
      ∧ ("+ " ++ (DirTree.node "usr" true [] []).name ++ "/")
          ∈ plan_lines "/" (.node "" true ["swapfile"] [DirTree.node "usr" true [] []])) :=
  ⟨List.mem_cons_self _ _, by decide, rfl,
    spec2proof_C10 "" ["swapfile"] [DirTree.node "usr" true [] []]
      (DirTree.node "usr" true [] []) (List.mem_cons_self _ _) (by decide) rfl⟩
